import Mathlib

/-!
Shallow embedding of the tic-tac-toe session core (`game_state.py`) and the
move-handling and broadcast path of the websocket server
(`websocket_server.py`).  Python `GameState` attributes become fields of a
Lean structure; the mutating methods become pure functions returning the new
state; the `(success, message)` return of `make_move` becomes an explicit
pair; the exceptions `Player(symbol)` / `GameStatus(value)` can raise while
loading a snapshot become `Option`.
-/

/-- The `GameStatus` enum of `game_state.py`. -/
inductive GameStatus where
  | WAITING
  | IN_PROGRESS
  | FINISHED
deriving DecidableEq, Repr

/-- `GameStatus.value`: the string payload of each enum member. -/
def GameStatus.value : GameStatus → String
  | .WAITING => "waiting"
  | .IN_PROGRESS => "in_progress"
  | .FINISHED => "finished"

/-- The `Player` enum of `game_state.py`. -/
inductive Player where
  | X
  | O
deriving DecidableEq, Repr

/-- `Player.value`: the string payload of each enum member. -/
def Player.value : Player → String
  | .X => "X"
  | .O => "O"

/-- Python dict lookup `players[id]` / membership `id in players`, modelled
on an insertion-ordered association list (Python dicts preserve insertion
order and have unique keys). -/
def lookupP : List (String × Player) → String → Option Player
  | [], _ => none
  | (k, v) :: rest, id => if k = id then some v else lookupP rest id

/-- Python `del players[id]`: removes the (unique) entry with the given key;
on an association list this is removal of the first matching entry. -/
def removeEntry : List (String × Player) → String → List (String × Player)
  | [], _ => []
  | (k, v) :: rest, id => if k = id then rest else (k, v) :: removeEntry rest id

/-- The mutable attributes of Python's `GameState` (minus `board_size`,
which is set to `3` in `__init__` and never written again; the code that
reads it, the column loop of `_check_win`, is embedded with the constant
inlined). `player_count` is a Python `int`, hence `Int`. Board cells are the
strings `""`, `"X"`, `"O"` exactly as in the source. -/
structure GameState where
  board : List (List String)
  current_turn : Player
  status : GameStatus
  winner : Option Player
  players : List (String × Player)
  player_count : Int
deriving DecidableEq, Repr

/-- `GameState.__init__`: empty 3x3 board, X to move, waiting, no winner,
no players. -/
def initialState : GameState :=
  { board := [["", "", ""], ["", "", ""], ["", "", ""]]
    current_turn := Player.X
    status := GameStatus.WAITING
    winner := none
    players := []
    player_count := 0 }

/-- Read `board[r][c]` (indices known to be in range at every use site in
the source; out-of-range reads default to `""` / `[]`). -/
def getCell (b : List (List String)) (r c : Nat) : String :=
  (b.getD r []).getD c ""

/-- Write `board[r][c] = v`. -/
def setCell (b : List (List String)) (r c : Nat) (v : String) : List (List String) :=
  b.set r ((b.getD r []).set c v)

/-- One line of `_check_win`'s comparisons: `a == b == c != ""`. -/
def lineWin (a b c : String) : Bool :=
  a == b && b == c && c != ""

/-- `GameState._check_win`: rows (iterating the board's row lists), columns
(`for col in range(3)`, `board_size` being the constant 3), then the two
diagonals; early `return True` becomes disjunction. -/
def check_win (board : List (List String)) : Bool :=
  board.any (fun row => lineWin (row.getD 0 "") (row.getD 1 "") (row.getD 2 "")) ||
  [0, 1, 2].any (fun col =>
    lineWin ((board.getD 0 []).getD col "") ((board.getD 1 []).getD col "")
      ((board.getD 2 []).getD col "")) ||
  lineWin (getCell board 0 0) (getCell board 1 1) (getCell board 2 2) ||
  lineWin (getCell board 0 2) (getCell board 1 1) (getCell board 2 0)

/-- `GameState._is_board_full`: no cell is `""`. -/
def is_board_full (board : List (List String)) : Bool :=
  board.all (fun row => row.all (fun cell => cell != ""))

/-- `GameState.add_player`: returns the new state together with the
assigned `Player` (`none` = game full). -/
def add_player (s : GameState) (player_id : String) : GameState × Option Player :=
  match lookupP s.players player_id with
  | some p => (s, some p)
  | none =>
    if s.player_count ≥ 2 then (s, none)
    else
      let assigned := if s.player_count = 0 then Player.X else Player.O
      let players := s.players ++ [(player_id, assigned)]
      let count := s.player_count + 1
      ({ s with
          players := players
          player_count := count
          status := if count = 2 then GameStatus.IN_PROGRESS else s.status },
        some assigned)

/-- `GameState.remove_player`. -/
def remove_player (s : GameState) (player_id : String) : GameState :=
  if (lookupP s.players player_id).isSome then
    let players := removeEntry s.players player_id
    let count := s.player_count - 1
    { s with
        players := players
        player_count := count
        status := if count < 2 then GameStatus.WAITING else s.status }
  else s

/-- Lines 89-105 of `make_move` (the part after all validations): place the
mark, then check win before full before flipping the turn. -/
def moveResultState (s : GameState) (player : Player) (row col : Int) : GameState :=
  let b := setCell s.board row.toNat col.toNat player.value
  if check_win b then
    { s with board := b, winner := some player, status := GameStatus.FINISHED }
  else if is_board_full b then
    { s with board := b, winner := none, status := GameStatus.FINISHED }
  else
    { s with
        board := b
        current_turn := if player = Player.X then Player.O else Player.X }

/-- `GameState.make_move`: returns the new state and the `(success, message)`
pair. Each early `return False, msg` leaves the state untouched. -/
def make_move (s : GameState) (player_id : String) (row col : Int) :
    GameState × Bool × String :=
  if s.status ≠ GameStatus.IN_PROGRESS then
    (s, false, "Game is not in progress")
  else
    match lookupP s.players player_id with
    | none => (s, false, "Player not in game")
    | some player =>
      if player ≠ s.current_turn then
        (s, false, "Not your turn. Current turn: " ++ s.current_turn.value)
      else if ¬ (0 ≤ row ∧ row ≤ 2 ∧ 0 ≤ col ∧ col ≤ 2) then
        (s, false, "Invalid coordinates. Use 0-2 for row and column")
      else if getCell s.board row.toNat col.toNat ≠ "" then
        (s, false, "Cell is already occupied")
      else
        (moveResultState s player row col, true, "Move successful")

/-- `GameState.reset`: every mutable attribute back to its initial value. -/
def reset (_s : GameState) : GameState :=
  initialState

/-- The dictionary produced by `GameState.get_state_dict` (and accepted by
`load_state`): board as-is, enum values as strings, winner optional,
players as an id → symbol mapping. -/
structure StateDict where
  board : List (List String)
  current_turn : Option String
  status : String
  winner : Option String
  player_count : Int
  players : List (String × String)
deriving DecidableEq, Repr

/-- `GameState.get_state_dict`. (`current_turn` is a `Player`, always
truthy, so the `if self.current_turn else None` guard always takes the
value branch.) -/
def get_state_dict (s : GameState) : StateDict :=
  { board := s.board
    current_turn := some s.current_turn.value
    status := s.status.value
    winner := s.winner.map Player.value
    player_count := s.player_count
    players := s.players.map (fun e => (e.1, e.2.value)) }

/-- Python `Player(symbol)`: `none` models the `ValueError` raised on an
unknown symbol. -/
def parsePlayer (v : String) : Option Player :=
  if v = "X" then some Player.X
  else if v = "O" then some Player.O
  else none

/-- Python `GameStatus(value)`. -/
def parseStatus (v : String) : Option GameStatus :=
  if v = "waiting" then some GameStatus.WAITING
  else if v = "in_progress" then some GameStatus.IN_PROGRESS
  else if v = "finished" then some GameStatus.FINISHED
  else none

/-- The player-loading loop of `load_state`: parses each symbol in mapping
order (each iteration also does `player_count += 1`, so the resulting count
is the length of this list). -/
def loadPlayers : List (String × String) → Option (List (String × Player))
  | [] => some []
  | (pid, sym) :: rest => do
    let p ← parsePlayer sym
    let ps ← loadPlayers rest
    pure ((pid, p) :: ps)

/-- The current-turn entry of `load_state`: a falsy value (absent key or
`""`) defaults to X, anything else goes through `Player(symbol)`. -/
def loadTurn (ct : Option String) : Option Player :=
  match ct with
  | some t => if t = "" then some Player.X else parsePlayer t
  | none => some Player.X

/-- The winner entry of `load_state`: a falsy value means no winner,
anything else goes through `Player(symbol)`. -/
def loadWinner (w : Option String) : Option (Option Player) :=
  match w with
  | some v => if v = "" then some none else (parsePlayer v).map some
  | none => some none

/-- `GameState.load_state`: replaces every field from the snapshot; the
player count is recomputed by the loading loop (the snapshot's
`player_count` entry is never read). `none` models a raised `ValueError`. -/
def load_state (d : StateDict) : Option GameState := do
  let players ← loadPlayers d.players
  let status ← parseStatus d.status
  let turn ← loadTurn d.current_turn
  let winner ← loadWinner d.winner
  pure { board := d.board
         current_turn := turn
         status := status
         winner := winner
         players := players
         player_count := (players.length : Int) }

/-- The session-mutating commands of the spec (join / leave / move / reset),
i.e. the four `GameState` methods reachable from the coordinator. -/
inductive Op where
  | add (id : String)
  | remove (id : String)
  | move (id : String) (row col : Int)
  | reset
deriving DecidableEq, Repr

/-- Apply one command to a state. -/
def applyOp (s : GameState) : Op → GameState
  | .add id => (add_player s id).1
  | .remove id => remove_player s id
  | .move id row col => (make_move s id row col).1
  | .reset => reset s

/-- Run a command sequence. -/
def runOps (s : GameState) (ops : List Op) : GameState :=
  ops.foldl applyOp s

/-- A session state reachable from the empty initial state. -/
def Reachable (s : GameState) : Prop :=
  ∃ ops : List Op, runOps initialState ops = s

/-- The messages the server can send to a client (`websocket_server.py` /
`cli_client.py`): the broadcast `update`, the terminal `win` / `draw`
messages the CLI client listens for, the per-client `error` and `joined`. -/
inductive ServerMsg where
  | update (board : List (List String)) (nextTurn : Option String)
      (status : String) (playerCount : Int) (players : List (String × String))
  | win (winner : Option String)
  | draw
  | error (message : String)
  | joined (playerId : String) (message : String)
deriving DecidableEq, Repr

/-- The `update` message built by `TicTacToeServer.broadcast_game_state`
from `get_state_dict`. -/
def update_message (s : GameState) : ServerMsg :=
  let d := get_state_dict s
  ServerMsg.update d.board d.current_turn d.status d.player_count d.players

/-- `TicTacToeServer.broadcast_game_state` sends exactly one message (the
`update`) to every client. -/
def broadcast_game_state (s : GameState) : List ServerMsg :=
  [update_message s]

/-- `TicTacToeServer.handle_move`, with the Redis side effects (save and
publish) elided: returns the new state, the list of messages broadcast to
all clients, and the list of messages sent only to the requester. -/
def handle_move (s : GameState) (player_id : String) (row col : Int) :
    GameState × List ServerMsg × List ServerMsg :=
  let r := make_move s player_id row col
  if r.2.1 then
    (r.1, broadcast_game_state r.1, [])
  else
    (s, [], [ServerMsg.error r.2.2])

/-- Is a message one of the terminal (`win` / `draw`) notifications? -/
def isTerminalMsg : ServerMsg → Bool
  | .win _ => true
  | .draw => true
  | _ => false

/-- Is a message an `update`? -/
def isUpdateMsg : ServerMsg → Bool
  | .update _ _ _ _ _ => true
  | _ => false

/-! ### Association-list lemmas (the `players` dict) -/

theorem lookupP_eq_none_iff (ps : List (String × Player)) (id : String) :
    lookupP ps id = none ↔ id ∉ ps.map Prod.fst := by
  induction ps with
  | nil => simp [lookupP]
  | cons e rest ih =>
    obtain ⟨k, v⟩ := e
    simp only [List.map_cons, List.mem_cons, lookupP]
    by_cases h : k = id
    · simp [h]
    · rw [if_neg h, ih]
      constructor
      · intro hnot hor
        rcases hor with h1 | h2
        · exact h h1.symm
        · exact hnot h2
      · intro hnot hmem
        exact hnot (Or.inr hmem)

theorem removeEntry_sublist (ps : List (String × Player)) (id : String) :
    (removeEntry ps id).Sublist ps := by
  induction ps with
  | nil => simp [removeEntry]
  | cons e rest ih =>
    obtain ⟨k, v⟩ := e
    by_cases h : k = id
    · simp [removeEntry, h]
    · simpa [removeEntry, h] using ih.cons₂ (k, v)

theorem removeEntry_of_lookup_none (ps : List (String × Player)) (id : String)
    (h : lookupP ps id = none) : removeEntry ps id = ps := by
  induction ps with
  | nil => simp [removeEntry]
  | cons e rest ih =>
    obtain ⟨k, v⟩ := e
    by_cases hk : k = id
    · simp [lookupP, hk] at h
    · simp only [lookupP, if_neg hk] at h
      simp [removeEntry, hk, ih h]

theorem length_removeEntry (ps : List (String × Player)) (id : String) (p : Player)
    (h : lookupP ps id = some p) : (removeEntry ps id).length + 1 = ps.length := by
  induction ps with
  | nil => simp [lookupP] at h
  | cons e rest ih =>
    obtain ⟨k, v⟩ := e
    by_cases hk : k = id
    · simp [removeEntry, hk]
    · simp only [lookupP, if_neg hk] at h
      simp [removeEntry, hk, ih h]

theorem lookupP_removeEntry_self (ps : List (String × Player)) (id : String)
    (h : (ps.map Prod.fst).Nodup) : lookupP (removeEntry ps id) id = none := by
  induction ps with
  | nil => simp [removeEntry, lookupP]
  | cons e rest ih =>
    obtain ⟨k, v⟩ := e
    simp only [List.map_cons, List.nodup_cons] at h
    by_cases hk : k = id
    · subst hk
      simpa [removeEntry] using (lookupP_eq_none_iff rest k).mpr h.1
    · simp [removeEntry, hk, lookupP, ih h.2]

theorem lookupP_removeEntry_ne (ps : List (String × Player)) (id id' : String)
    (h : id' ≠ id) : lookupP (removeEntry ps id) id' = lookupP ps id' := by
  induction ps with
  | nil => simp [removeEntry]
  | cons e rest ih =>
    obtain ⟨k, v⟩ := e
    by_cases hk : k = id
    · subst hk
      simp [removeEntry, lookupP, Ne.symm h]
    · by_cases hk' : k = id' <;> simp [removeEntry, hk, lookupP, hk', h, ih]

theorem lookupP_append_right (ps : List (String × Player)) (id : String)
    (e : String × Player) :
    lookupP ps id = none →
    lookupP (ps ++ [e]) id = if e.1 = id then some e.2 else none := by
  induction ps with
  | nil =>
    intro _
    simp [lookupP]
  | cons f rest ih =>
    intro h
    obtain ⟨k, v⟩ := f
    by_cases hk : k = id
    · simp [lookupP, hk] at h
    · simp only [lookupP, if_neg hk] at h
      simp [lookupP, hk, ih h]

/-! ### Board lemmas -/

/-- The board shape maintained by every operation: three rows of three
cells. -/
def BoardWF (b : List (List String)) : Prop :=
  b.length = 3 ∧ ∀ row ∈ b, row.length = 3

theorem boardWF_initial : BoardWF initialState.board := by
  constructor
  · rfl
  · intro row hrow
    simp only [initialState, List.mem_cons, List.not_mem_nil, or_false] at hrow
    rcases hrow with h | h | h <;> simp [h]

theorem boardWF_setCell (b : List (List String)) (r c : Nat) (v : String)
    (h : BoardWF b) : BoardWF (setCell b r c v) := by
  obtain ⟨hlen, hrow⟩ := h
  rcases Nat.lt_or_ge r b.length with hr | hr
  · constructor
    · simp [setCell, hlen]
    · intro row hmem
      rcases List.mem_or_eq_of_mem_set hmem with hmem' | rfl
      · exact hrow _ hmem'
      · rw [List.length_set, List.getD_eq_getElem b [] hr]
        exact hrow _ (List.getElem_mem hr)
  · have hset : setCell b r c v = b := by
      unfold setCell
      exact List.set_eq_of_length_le hr
    rw [hset]
    exact ⟨hlen, hrow⟩

theorem getD_set_ne {α : Type} (l : List α) (i j : Nat) (a d : α) (h : i ≠ j) :
    (l.set i a).getD j d = l.getD j d := by
  rw [List.getD_eq_getElem?_getD, List.getElem?_set_ne h, ← List.getD_eq_getElem?_getD]

theorem getCell_setCell_ne (b : List (List String)) (r c r' c' : Nat) (v : String)
    (h : r ≠ r' ∨ c ≠ c') :
    getCell (setCell b r' c' v) r c = getCell b r c := by
  unfold getCell setCell
  rcases h with h | h
  · rw [getD_set_ne _ _ _ _ _ (Ne.symm h)]
  · by_cases hr : r = r'
    · subst hr
      by_cases hlen : r < b.length
      · rw [List.getD_eq_getElem?_getD (b.set r _), List.getElem?_set_self hlen]
        simp only [Option.getD_some]
        rw [getD_set_ne _ _ _ _ _ (Ne.symm h)]
      · rw [List.set_eq_of_length_le (Nat.le_of_not_lt hlen)]
    · rw [getD_set_ne _ _ _ _ _ (fun hh => hr hh.symm)]

theorem getCell_setCell_self (b : List (List String)) (r c : Nat) (v : String)
    (hr : r < b.length) (hc : c < (b.getD r []).length) :
    getCell (setCell b r c v) r c = v := by
  unfold getCell setCell
  rw [List.getD_eq_getElem?_getD (b.set r _), List.getElem?_set_self hr]
  simp only [Option.getD_some]
  rw [List.getD_eq_getElem?_getD, List.getElem?_set_self hc]
  rfl

/-! ### The state invariant and its preservation -/

/-- The board satisfies a terminal condition: a three-in-a-row win or a
full board. -/
def terminalBoard (b : List (List String)) : Bool :=
  check_win b || is_board_full b

/-- Invariant of every reachable session state: the stored count agrees
with the `players` mapping, keys are unique, at most two participants,
`IN_PROGRESS` (resp. `FINISHED`) forces exactly two participants
(resp. also a terminal board), and the board keeps its 3x3 shape. -/
def StateInv (s : GameState) : Prop :=
  s.player_count = (s.players.length : Int) ∧
  (s.players.map Prod.fst).Nodup ∧
  s.players.length ≤ 2 ∧
  (s.status = GameStatus.IN_PROGRESS → s.players.length = 2) ∧
  (s.status = GameStatus.FINISHED →
    s.players.length = 2 ∧ terminalBoard s.board = true) ∧
  BoardWF s.board

theorem inv_initial : StateInv initialState := by
  refine ⟨rfl, ?_, ?_, ?_, ?_, boardWF_initial⟩ <;> simp [initialState]

theorem inv_add (s : GameState) (id : String) (h : StateInv s) : StateInv (add_player s id).1 := by
  obtain ⟨hc, hnd, hle, hip, hfin, hwf⟩ := h
  cases hl : lookupP s.players id with
  | some p =>
    simp only [add_player, hl]
    exact ⟨hc, hnd, hle, hip, hfin, hwf⟩
  | none =>
    by_cases h2 : s.player_count ≥ 2
    · simp only [add_player, hl, if_pos h2]
      exact ⟨hc, hnd, hle, hip, hfin, hwf⟩
    · simp only [add_player, hl, if_neg h2]
      have hid : id ∉ s.players.map Prod.fst := (lookupP_eq_none_iff _ _).mp hl
      have hlen1 : s.players.length ≤ 1 := by
        have : (s.players.length : Int) < 2 := by rw [← hc]; omega
        omega
      refine ⟨?_, ?_, ?_, ?_, ?_, hwf⟩
      · simp only [hc, List.length_append, List.length_singleton]
        push_cast
        ring
      · simpa using List.Nodup.append hnd (by simp) (by simpa using hid)
      · simp
        omega
      · intro hst
        simp only at hst
        by_cases hc2 : s.player_count + 1 = 2
        · have : (s.players.length : Int) + 1 = 2 := by rw [← hc]; exact_mod_cast hc2
          simp
          omega
        · rw [if_neg hc2] at hst
          have := hip hst
          omega
      · intro hst
        simp only at hst
        by_cases hc2 : s.player_count + 1 = 2
        · rw [if_pos hc2] at hst
          cases hst
        · rw [if_neg hc2] at hst
          have := hfin hst
          omega

theorem inv_remove (s : GameState) (id : String) (h : StateInv s) : StateInv (remove_player s id) := by
  obtain ⟨hc, hnd, hle, hip, hfin, hwf⟩ := h
  unfold remove_player
  by_cases hl : (lookupP s.players id).isSome
  · obtain ⟨p, hp⟩ := Option.isSome_iff_exists.mp hl
    have hlen : (removeEntry s.players id).length + 1 = s.players.length :=
      length_removeEntry _ _ _ hp
    have hnd' : ((removeEntry s.players id).map Prod.fst).Nodup :=
      hnd.sublist ((removeEntry_sublist _ _).map _)
    have hlt : s.player_count - 1 < 2 := by
      rw [hc]
      have : (s.players.length : Int) ≤ 2 := by exact_mod_cast hle
      omega
    simp only [hl, if_true, if_pos hlt]
    refine ⟨?_, hnd', ?_, ?_, ?_, hwf⟩
    · simp only [hc]
      have : ((removeEntry s.players id).length : Int) + 1 = (s.players.length : Int) := by
        exact_mod_cast hlen
      omega
    · simp
      omega
    · intro hst
      cases hst
    · intro hst
      cases hst
  · simp only [hl, if_false, Bool.false_eq_true]
    exact ⟨hc, hnd, hle, hip, hfin, hwf⟩

/-! ### Case analysis of `make_move` -/

/-- Every call to `make_move` either fails leaving the state untouched, or
passes all five validations and commits the move. -/
theorem make_move_cases (s : GameState) (id : String) (row col : Int) :
    make_move s id row col = (s, false, (make_move s id row col).2.2) ∨
    (∃ p, s.status = GameStatus.IN_PROGRESS ∧ lookupP s.players id = some p ∧
      p = s.current_turn ∧ (0 ≤ row ∧ row ≤ 2 ∧ 0 ≤ col ∧ col ≤ 2) ∧
      getCell s.board row.toNat col.toNat = "" ∧
      make_move s id row col = (moveResultState s p row col, true, "Move successful")) := by
  by_cases h1 : s.status = GameStatus.IN_PROGRESS
  case neg =>
    left
    simp [make_move, h1]
  cases hl : lookupP s.players id with
  | none =>
    left
    simp [make_move, h1, hl]
  | some p =>
    by_cases h3 : p = s.current_turn
    case neg =>
      left
      simp [make_move, h1, hl, h3]
    by_cases h4 : (0 ≤ row ∧ row ≤ 2 ∧ 0 ≤ col ∧ col ≤ 2)
    case neg =>
      left
      simp only [make_move, h1, hl]
      simp [h3, h4]
    by_cases h5 : getCell s.board row.toNat col.toNat = ""
    case neg =>
      left
      simp only [make_move, h1, hl]
      simp [h3, h4, h5]
    right
    refine ⟨p, h1, rfl, h3, h4, h5, ?_⟩
    simp only [make_move, h1, hl]
    simp [h3, h4, h5]

/-- A failed `make_move` returns the state unchanged. -/
theorem make_move_fail_state (s : GameState) (id : String) (row col : Int)
    (h : (make_move s id row col).2.1 = false) : (make_move s id row col).1 = s := by
  rcases make_move_cases s id row col with hcase | ⟨p, _, _, _, _, _, hcase⟩
  · rw [hcase]
  · rw [hcase] at h
    simp at h

/-- A successful `make_move` passed every validation and committed the
move. -/
theorem make_move_succ (s : GameState) (id : String) (row col : Int)
    (h : (make_move s id row col).2.1 = true) :
    ∃ p, s.status = GameStatus.IN_PROGRESS ∧ lookupP s.players id = some p ∧
      p = s.current_turn ∧ (0 ≤ row ∧ row ≤ 2 ∧ 0 ≤ col ∧ col ≤ 2) ∧
      getCell s.board row.toNat col.toNat = "" ∧
      make_move s id row col = (moveResultState s p row col, true, "Move successful") := by
  rcases make_move_cases s id row col with hcase | hcase
  · rw [hcase] at h
    simp at h
  · exact hcase

theorem inv_moveResultState (s : GameState) (p : Player) (row col : Int)
    (hin : s.status = GameStatus.IN_PROGRESS) (h : StateInv s) :
    StateInv (moveResultState s p row col) := by
  obtain ⟨hc, hnd, hle, hip, hfin, hwf⟩ := h
  have hwf' : BoardWF (setCell s.board row.toNat col.toNat p.value) :=
    boardWF_setCell _ _ _ _ hwf
  unfold moveResultState
  by_cases hw : check_win (setCell s.board row.toNat col.toNat p.value) = true
  · simp only [hw, if_true]
    refine ⟨hc, hnd, hle, ?_, ?_, hwf'⟩
    · intro hst
      cases hst
    · intro _
      exact ⟨hip hin, by simp [terminalBoard, hw]⟩
  · simp only [hw, if_false, Bool.false_eq_true]
    by_cases hf : is_board_full (setCell s.board row.toNat col.toNat p.value) = true
    · simp only [hf, if_true]
      refine ⟨hc, hnd, hle, ?_, ?_, hwf'⟩
      · intro hst
        cases hst
      · intro _
        exact ⟨hip hin, by simp [terminalBoard, hf]⟩
    · simp only [hf, if_false, Bool.false_eq_true]
      exact ⟨hc, hnd, hle, fun _ => hip hin, fun hst => absurd (hin ▸ hst) (by simp [hin]), hwf'⟩

theorem inv_move (s : GameState) (id : String) (row col : Int) (h : StateInv s) :
    StateInv (make_move s id row col).1 := by
  rcases make_move_cases s id row col with hcase | ⟨p, hin, _, _, _, _, hcase⟩
  · rw [hcase]
    exact h
  · rw [hcase]
    exact inv_moveResultState s p row col hin h

theorem inv_reset (s : GameState) : StateInv (reset s) :=
  inv_initial

theorem inv_applyOp (s : GameState) (op : Op) (h : StateInv s) : StateInv (applyOp s op) := by
  cases op with
  | add id => exact inv_add s id h
  | remove id => exact inv_remove s id h
  | move id row col => exact inv_move s id row col h
  | reset => exact inv_reset s

theorem inv_runOps (ops : List Op) (s : GameState) (h : StateInv s) :
    StateInv (runOps s ops) := by
  induction ops generalizing s with
  | nil => exact h
  | cons op rest ih => exact ih _ (inv_applyOp s op h)

/-- Every reachable state satisfies the invariant. -/
theorem reachable_inv (s : GameState) (h : Reachable s) : StateInv s := by
  obtain ⟨ops, rfl⟩ := h
  exact inv_runOps ops initialState inv_initial

/-! ### Frame lemmas and the full branch enumeration of `make_move` -/

theorem moveResultState_board (s : GameState) (p : Player) (row col : Int) :
    (moveResultState s p row col).board = setCell s.board row.toNat col.toNat p.value := by
  unfold moveResultState
  by_cases hw : check_win (setCell s.board row.toNat col.toNat p.value) = true
  · simp [hw]
  · by_cases hf : is_board_full (setCell s.board row.toNat col.toNat p.value) = true
    · simp [hw, hf]
    · simp [hw, hf]

theorem add_player_board (s : GameState) (id : String) :
    (add_player s id).1.board = s.board := by
  unfold add_player
  cases lookupP s.players id with
  | some p => rfl
  | none =>
    by_cases h2 : s.player_count ≥ 2 <;> simp [h2]

theorem remove_player_board (s : GameState) (id : String) :
    (remove_player s id).board = s.board := by
  unfold remove_player
  by_cases h : (lookupP s.players id).isSome <;> simp [h]

/-- `make_move` splits into the five failure branches (each leaving the
state untouched) and the success branch. -/
theorem make_move_branches (s : GameState) (id : String) (row col : Int) :
    (s.status ≠ GameStatus.IN_PROGRESS ∧
      make_move s id row col = (s, false, "Game is not in progress")) ∨
    (s.status = GameStatus.IN_PROGRESS ∧ lookupP s.players id = none ∧
      make_move s id row col = (s, false, "Player not in game")) ∨
    (∃ p, s.status = GameStatus.IN_PROGRESS ∧ lookupP s.players id = some p ∧
      p ≠ s.current_turn ∧
      make_move s id row col =
        (s, false, "Not your turn. Current turn: " ++ s.current_turn.value)) ∨
    (∃ p, s.status = GameStatus.IN_PROGRESS ∧ lookupP s.players id = some p ∧
      p = s.current_turn ∧ ¬ (0 ≤ row ∧ row ≤ 2 ∧ 0 ≤ col ∧ col ≤ 2) ∧
      make_move s id row col =
        (s, false, "Invalid coordinates. Use 0-2 for row and column")) ∨
    (∃ p, s.status = GameStatus.IN_PROGRESS ∧ lookupP s.players id = some p ∧
      p = s.current_turn ∧ (0 ≤ row ∧ row ≤ 2 ∧ 0 ≤ col ∧ col ≤ 2) ∧
      getCell s.board row.toNat col.toNat ≠ "" ∧
      make_move s id row col = (s, false, "Cell is already occupied")) ∨
    (∃ p, s.status = GameStatus.IN_PROGRESS ∧ lookupP s.players id = some p ∧
      p = s.current_turn ∧ (0 ≤ row ∧ row ≤ 2 ∧ 0 ≤ col ∧ col ≤ 2) ∧
      getCell s.board row.toNat col.toNat = "" ∧
      make_move s id row col = (moveResultState s p row col, true, "Move successful")) := by
  by_cases h1 : s.status = GameStatus.IN_PROGRESS
  case neg =>
    exact Or.inl ⟨h1, by simp [make_move, h1]⟩
  cases hl : lookupP s.players id with
  | none =>
    exact Or.inr (Or.inl ⟨h1, rfl, by simp [make_move, h1, hl]⟩)
  | some p =>
    by_cases h3 : p = s.current_turn
    case neg =>
      refine Or.inr (Or.inr (Or.inl ⟨p, h1, rfl, h3, ?_⟩))
      simp only [make_move, h1, hl]
      simp [h3]
    by_cases h4 : (0 ≤ row ∧ row ≤ 2 ∧ 0 ≤ col ∧ col ≤ 2)
    case neg =>
      refine Or.inr (Or.inr (Or.inr (Or.inl ⟨p, h1, rfl, h3, h4, ?_⟩)))
      simp only [make_move, h1, hl]
      simp [h3, h4]
    by_cases h5 : getCell s.board row.toNat col.toNat = ""
    case neg =>
      refine Or.inr (Or.inr (Or.inr (Or.inr (Or.inl ⟨p, h1, rfl, h3, h4, h5, ?_⟩))))
      simp only [make_move, h1, hl]
      simp [h3, h4, h5]
    refine Or.inr (Or.inr (Or.inr (Or.inr (Or.inr ⟨p, h1, rfl, h3, h4, h5, ?_⟩))))
    simp only [make_move, h1, hl]
    simp [h3, h4, h5]

/-! ### Parsing round-trip lemmas -/

theorem parsePlayer_value (p : Player) : parsePlayer p.value = some p := by
  cases p <;> rfl

theorem parseStatus_value (st : GameStatus) : parseStatus st.value = some st := by
  cases st <;> rfl

theorem player_value_ne_empty (p : Player) : (p.value = "") = False := by
  cases p <;> simp [Player.value]

theorem loadPlayers_map_value (ps : List (String × Player)) :
    loadPlayers (ps.map (fun e => (e.1, e.2.value))) = some ps := by
  induction ps with
  | nil => rfl
  | cons e rest ih =>
    obtain ⟨k, v⟩ := e
    simp [loadPlayers, parsePlayer_value, ih]

/-! ### Concrete game traces used as witnesses and counterexamples -/

/-- Both participants joined, no move yet. -/
def twoPlayersState : GameState :=
  runOps initialState [Op.add "p1", Op.add "p2"]

/-- X completes the top row on the seventh operation. -/
def winTrace : List Op :=
  [Op.add "p1", Op.add "p2", Op.move "p1" 0 0, Op.move "p2" 1 0,
   Op.move "p1" 0 1, Op.move "p2" 1 1, Op.move "p1" 0 2]

/-- The state after `winTrace`: X has won, the session is finished. -/
def wonState : GameState :=
  runOps initialState winTrace

/-- The state right before X's winning move. -/
def preWinState : GameState :=
  runOps initialState (winTrace.take 6)

/-- O completes the middle row on the eighth operation. -/
def oWinTrace : List Op :=
  [Op.add "p1", Op.add "p2", Op.move "p1" 0 0, Op.move "p2" 1 0,
   Op.move "p1" 0 1, Op.move "p2" 1 1, Op.move "p1" 2 2, Op.move "p2" 1 2]

/-- The state after `oWinTrace`: O has won and it is still O's turn. -/
def oWonState : GameState :=
  runOps initialState oWinTrace

theorem loadTurn_value (p : Player) : loadTurn (some p.value) = some p := by
  cases p <;> rfl

theorem loadWinner_map_value (w : Option Player) :
    loadWinner (w.map Player.value) = some w := by
  cases w with
  | none => rfl
  | some p => cases p <;> rfl

theorem load_state_count (d : StateDict) (s' : GameState) (h : load_state d = some s') :
    s'.player_count = (s'.players.length : Int) := by
  unfold load_state at h
  simp only [bind, Option.bind_eq_some, pure] at h
  obtain ⟨players, hp, h⟩ := h
  obtain ⟨st, hs, h⟩ := h
  obtain ⟨turn, ht, h⟩ := h
  obtain ⟨winner, hw, h⟩ := h
  rw [← Option.some_inj.mp h]

/-! ### A finished session is frozen under join and move -/

/-- Command sequences built from `addParticipant` and `applyMove` only. -/
def addsMovesOnly (ops : List Op) : Prop :=
  ∀ op ∈ ops, (∃ id, op = Op.add id) ∨ ∃ id row col, op = Op.move id row col

theorem finished_frozen (s : GameState) (h : StateInv s)
    (hf : s.status = GameStatus.FINISHED) (op : Op)
    (hop : (∃ id, op = Op.add id) ∨ ∃ id row col, op = Op.move id row col) :
    applyOp s op = s := by
  rcases hop with ⟨id, rfl⟩ | ⟨id, row, col, rfl⟩
  · obtain ⟨hc, _, _, _, hfin, _⟩ := h
    simp only [applyOp]
    cases hl : lookupP s.players id with
    | some p => simp [add_player, hl]
    | none =>
      have h2 : s.player_count ≥ 2 := by
        rw [hc, (hfin hf).1]
        norm_num
      simp [add_player, hl, h2]
  · simp only [applyOp]
    rcases make_move_cases s id row col with hcase | ⟨p, hin, _⟩
    · rw [hcase]
    · rw [hin] at hf
      cases hf

theorem finished_frozen_runOps (s : GameState) (h : StateInv s)
    (hf : s.status = GameStatus.FINISHED) (ops : List Op)
    (hops : addsMovesOnly ops) : runOps s ops = s := by
  induction ops with
  | nil => rfl
  | cons op rest ih =>
    have h1 : applyOp s op = s := finished_frozen s h hf op (hops op (by simp))
    show List.foldl applyOp (applyOp s op) rest = s
    rw [h1]
    exact ih (fun o ho => hops o (by simp [ho]))

/-! ### No operation but reset overwrites a non-empty cell -/

theorem applyOp_preserves_nonempty_cell (s : GameState) (op : Op) (hop : op ≠ Op.reset)
    (r c : Nat) (h : getCell s.board r c ≠ "") :
    getCell (applyOp s op).board r c = getCell s.board r c := by
  cases op with
  | add id => rw [show (applyOp s (Op.add id)).board = s.board from add_player_board s id]
  | remove id => rw [show (applyOp s (Op.remove id)).board = s.board from remove_player_board s id]
  | move id row col =>
    rcases make_move_cases s id row col with hcase | ⟨p, _, _, _, _, h5, hcase⟩
    · show getCell (make_move s id row col).1.board r c = getCell s.board r c
      rw [hcase]
    · show getCell (make_move s id row col).1.board r c = getCell s.board r c
      rw [hcase]
      simp only
      rw [moveResultState_board]
      apply getCell_setCell_ne
      by_contra hcon
      push_neg at hcon
      obtain ⟨hr, hcc⟩ := hcon
      rw [hr, hcc] at h
      exact h h5
  | reset => exact absurd rfl hop

/-! ### The five failure equations and the success equation of `make_move` -/

theorem make_move_eq_not_in_progress (s : GameState) (id : String) (row col : Int)
    (h : s.status ≠ GameStatus.IN_PROGRESS) :
    make_move s id row col = (s, false, "Game is not in progress") := by
  simp [make_move, h]

theorem make_move_eq_unknown (s : GameState) (id : String) (row col : Int)
    (h1 : s.status = GameStatus.IN_PROGRESS) (h2 : lookupP s.players id = none) :
    make_move s id row col = (s, false, "Player not in game") := by
  simp [make_move, h1, h2]

theorem make_move_eq_wrong_turn (s : GameState) (id : String) (row col : Int) (p : Player)
    (h1 : s.status = GameStatus.IN_PROGRESS) (h2 : lookupP s.players id = some p)
    (h3 : p ≠ s.current_turn) :
    make_move s id row col =
      (s, false, "Not your turn. Current turn: " ++ s.current_turn.value) := by
  simp only [make_move, h1, h2]
  simp [h3]

theorem make_move_eq_out_of_bounds (s : GameState) (id : String) (row col : Int) (p : Player)
    (h1 : s.status = GameStatus.IN_PROGRESS) (h2 : lookupP s.players id = some p)
    (h3 : p = s.current_turn) (h4 : ¬ (0 ≤ row ∧ row ≤ 2 ∧ 0 ≤ col ∧ col ≤ 2)) :
    make_move s id row col =
      (s, false, "Invalid coordinates. Use 0-2 for row and column") := by
  simp only [make_move, h1, h2]
  simp [h3, h4]

theorem make_move_eq_occupied (s : GameState) (id : String) (row col : Int) (p : Player)
    (h1 : s.status = GameStatus.IN_PROGRESS) (h2 : lookupP s.players id = some p)
    (h3 : p = s.current_turn) (h4 : 0 ≤ row ∧ row ≤ 2 ∧ 0 ≤ col ∧ col ≤ 2)
    (h5 : getCell s.board row.toNat col.toNat ≠ "") :
    make_move s id row col = (s, false, "Cell is already occupied") := by
  simp only [make_move, h1, h2]
  simp [h3, h4, h5]

theorem make_move_eq_success (s : GameState) (id : String) (row col : Int) (p : Player)
    (h1 : s.status = GameStatus.IN_PROGRESS) (h2 : lookupP s.players id = some p)
    (h3 : p = s.current_turn) (h4 : 0 ≤ row ∧ row ≤ 2 ∧ 0 ≤ col ∧ col ≤ 2)
    (h5 : getCell s.board row.toNat col.toNat = "") :
    make_move s id row col = (moveResultState s p row col, true, "Move successful") := by
  simp only [make_move, h1, h2]
  simp [h3, h4, h5]


/-- Claim C3: `make_move(id, row, col)` fails with "Game is not in progress"
exactly when the phase is not IN_PROGRESS; otherwise with "Player not in
game" exactly when `id` is unregistered; otherwise with the wrong-turn
message exactly when the participant's mark differs from the current turn;
otherwise with the invalid-coordinates message exactly when row or col is
outside 0..2; otherwise with "Cell is already occupied" exactly when the
target cell is non-empty; and every failure leaves the whole session state
unchanged. -/
theorem C3_error_cascade (s : GameState) (id : String) (row col : Int) :
    (((make_move s id row col).2.1 = false ∧
        (make_move s id row col).2.2 = "Game is not in progress") ↔
      s.status ≠ GameStatus.IN_PROGRESS) ∧
    (s.status = GameStatus.IN_PROGRESS →
      (((make_move s id row col).2.1 = false ∧
          (make_move s id row col).2.2 = "Player not in game") ↔
        lookupP s.players id = none)) ∧
    (∀ p, s.status = GameStatus.IN_PROGRESS → lookupP s.players id = some p →
      (((make_move s id row col).2.1 = false ∧
          (make_move s id row col).2.2 =
            "Not your turn. Current turn: " ++ s.current_turn.value) ↔
        p ≠ s.current_turn)) ∧
    (∀ p, s.status = GameStatus.IN_PROGRESS → lookupP s.players id = some p →
      p = s.current_turn →
      (((make_move s id row col).2.1 = false ∧
          (make_move s id row col).2.2 =
            "Invalid coordinates. Use 0-2 for row and column") ↔
        ¬ (0 ≤ row ∧ row ≤ 2 ∧ 0 ≤ col ∧ col ≤ 2))) ∧
    (∀ p, s.status = GameStatus.IN_PROGRESS → lookupP s.players id = some p →
      p = s.current_turn → (0 ≤ row ∧ row ≤ 2 ∧ 0 ≤ col ∧ col ≤ 2) →
      (((make_move s id row col).2.1 = false ∧
          (make_move s id row col).2.2 = "Cell is already occupied") ↔
        getCell s.board row.toNat col.toNat ≠ "")) ∧
    ((make_move s id row col).2.1 = false → (make_move s id row col).1 = s) := by
  refine ⟨?_, ?_, ?_, ?_, ?_, make_move_fail_state s id row col⟩
  · constructor
    · rintro ⟨hf, hm⟩
      by_contra h1
      cases hl : lookupP s.players id with
      | none =>
        simp only [make_move_eq_unknown s id row col h1 hl] at hm
        exact absurd hm (by decide)
      | some p =>
        by_cases h3 : p = s.current_turn
        · by_cases h4 : (0 ≤ row ∧ row ≤ 2 ∧ 0 ≤ col ∧ col ≤ 2)
          · by_cases h5 : getCell s.board row.toNat col.toNat = ""
            · simp only [make_move_eq_success s id row col p h1 hl h3 h4 h5] at hf
              exact absurd hf (by decide)
            · simp only [make_move_eq_occupied s id row col p h1 hl h3 h4 h5] at hm
              exact absurd hm (by decide)
          · simp only [make_move_eq_out_of_bounds s id row col p h1 hl h3 h4] at hm
            exact absurd hm (by decide)
        · simp only [make_move_eq_wrong_turn s id row col p h1 hl h3] at hm
          cases hct : s.current_turn <;> rw [hct] at hm <;> exact absurd hm (by decide)
    · intro h1
      rw [make_move_eq_not_in_progress s id row col h1]
      exact ⟨rfl, rfl⟩
  · intro h1
    constructor
    · rintro ⟨hf, hm⟩
      cases hl : lookupP s.players id with
      | none => rfl
      | some p =>
        by_cases h3 : p = s.current_turn
        · by_cases h4 : (0 ≤ row ∧ row ≤ 2 ∧ 0 ≤ col ∧ col ≤ 2)
          · by_cases h5 : getCell s.board row.toNat col.toNat = ""
            · simp only [make_move_eq_success s id row col p h1 hl h3 h4 h5] at hf
              exact absurd hf (by decide)
            · simp only [make_move_eq_occupied s id row col p h1 hl h3 h4 h5] at hm
              exact absurd hm (by decide)
          · simp only [make_move_eq_out_of_bounds s id row col p h1 hl h3 h4] at hm
            exact absurd hm (by decide)
        · simp only [make_move_eq_wrong_turn s id row col p h1 hl h3] at hm
          cases hct : s.current_turn <;> rw [hct] at hm <;> exact absurd hm (by decide)
    · intro hl
      rw [make_move_eq_unknown s id row col h1 hl]
      exact ⟨rfl, rfl⟩
  · intro p h1 hl
    constructor
    · rintro ⟨hf, hm⟩
      intro h3
      by_cases h4 : (0 ≤ row ∧ row ≤ 2 ∧ 0 ≤ col ∧ col ≤ 2)
      · by_cases h5 : getCell s.board row.toNat col.toNat = ""
        · simp only [make_move_eq_success s id row col p h1 hl h3 h4 h5] at hf
          exact absurd hf (by decide)
        · simp only [make_move_eq_occupied s id row col p h1 hl h3 h4 h5] at hm
          cases hct : s.current_turn <;> rw [hct] at hm <;> exact absurd hm (by decide)
      · simp only [make_move_eq_out_of_bounds s id row col p h1 hl h3 h4] at hm
        cases hct : s.current_turn <;> rw [hct] at hm <;> exact absurd hm (by decide)
    · intro h3
      rw [make_move_eq_wrong_turn s id row col p h1 hl h3]
      exact ⟨rfl, rfl⟩
  · intro p h1 hl h3
    constructor
    · rintro ⟨hf, hm⟩
      intro h4
      by_cases h5 : getCell s.board row.toNat col.toNat = ""
      · simp only [make_move_eq_success s id row col p h1 hl h3 h4 h5] at hf
        exact absurd hf (by decide)
      · simp only [make_move_eq_occupied s id row col p h1 hl h3 h4 h5] at hm
        exact absurd hm (by decide)
    · intro h4
      rw [make_move_eq_out_of_bounds s id row col p h1 hl h3 h4]
      exact ⟨rfl, rfl⟩
  · intro p h1 hl h3 h4
    constructor
    · rintro ⟨hf, hm⟩
      intro h5
      simp only [make_move_eq_success s id row col p h1 hl h3 h4 h5] at hf
      exact absurd hf (by decide)
    · intro h5
      rw [make_move_eq_occupied s id row col p h1 hl h3 h4 h5]
      exact ⟨rfl, rfl⟩

theorem C3_error_cascade_witness :
    (make_move initialState "p1" 0 0).2.1 = false ∧
    (make_move initialState "p1" 0 0).2.2 = "Game is not in progress" :=
  ((C3_error_cascade initialState "p1" 0 0).1).mpr (by decide)

/-- Claim C1: the spec says a terminal-reaching move's broadcast includes a
`win` or `draw` message immediately after the final `update`.  The server's
`handle_move` / `broadcast_game_state` in fact emit only the single
`update` message; at the concrete winning move (X completes the top row)
the session finishes with winner X, yet the broadcast list has exactly one
message, an `update`, and no terminal message — even though the CLI client
has handlers for `win` and `draw`. -/
theorem C1_terminal_broadcast_missing :
    (handle_move preWinState "p1" 0 2).1.status = GameStatus.FINISHED ∧
    (handle_move preWinState "p1" 0 2).1.winner = some Player.X ∧
    (handle_move preWinState "p1" 0 2).2.1.length = 1 ∧
    (handle_move preWinState "p1" 0 2).2.1.any isUpdateMsg = true ∧
    (handle_move preWinState "p1" 0 2).2.1.any isTerminalMsg = false :=
  ⟨by decide, by decide, by decide, by decide, by decide⟩

/-- Claim C2 (amended): in every reachable state, IN_PROGRESS implies
exactly two registered participants and FINISHED implies a terminal board
(the converses fail, see the counterexample); the participants map never
has more than two entries; and no operation other than reset changes a
non-empty cell. -/
theorem C2_invariants_amended :
    (∀ s : GameState, Reachable s →
      (s.status = GameStatus.IN_PROGRESS → s.players.length = 2) ∧
      (s.status = GameStatus.FINISHED → terminalBoard s.board = true) ∧
      s.players.length ≤ 2) ∧
    (∀ (s : GameState) (op : Op), op ≠ Op.reset → ∀ r c : Nat,
      getCell s.board r c ≠ "" →
      getCell (applyOp s op).board r c = getCell s.board r c) := by
  constructor
  · intro s hr
    obtain ⟨hc, hnd, hle, hip, hfin, hwf⟩ := reachable_inv s hr
    exact ⟨hip, fun hf => (hfin hf).2, hle⟩
  · exact applyOp_preserves_nonempty_cell

theorem C2_invariants_amended_witness :
    twoPlayersState.players.length = 2 ∧
    getCell (applyOp wonState (Op.add "p3")).board 0 0 = getCell wonState.board 0 0 :=
  ⟨(C2_invariants_amended.1 twoPlayersState ⟨[Op.add "p1", Op.add "p2"], rfl⟩).1 (by decide),
   C2_invariants_amended.2 wonState (Op.add "p3") (by decide) 0 0 (by decide)⟩

/-- Claim C2 as stated is false in both "iff" directions: `wonState` is a
reachable state with exactly two registered participants whose phase is
FINISHED, not IN_PROGRESS; and after removing one participant the board
still satisfies a terminal condition while the phase is WAITING, not
FINISHED. -/
theorem C2_invariants_counterexample :
    Reachable wonState ∧ wonState.players.length = 2 ∧
    wonState.status ≠ GameStatus.IN_PROGRESS ∧
    Reachable (remove_player wonState "p1") ∧
    terminalBoard (remove_player wonState "p1").board = true ∧
    (remove_player wonState "p1").status ≠ GameStatus.FINISHED :=
  ⟨⟨winTrace, rfl⟩, by decide, by decide,
   ⟨winTrace ++ [Op.remove "p1"], by decide⟩, by decide, by decide⟩

/-- Claim C4: on every successful `make_move` from a reachable state, the
mover's mark is written to the target cell; a win (checked first) finishes
the game with the mover as winner and the turn not yet flipped; a full
board with no win finishes it as a draw; otherwise the turn flips and the
phase stays IN_PROGRESS; and win detection on a 3x3 board is exactly the
three rows, three columns and two diagonals having three identical
non-empty marks. -/
theorem C4_success_semantics (s : GameState) (hr : Reachable s) (id : String)
    (row col : Int) (hs : (make_move s id row col).2.1 = true) :
    ∃ p, lookupP s.players id = some p ∧ p = s.current_turn ∧
      (make_move s id row col).1.board = setCell s.board row.toNat col.toNat p.value ∧
      getCell (make_move s id row col).1.board row.toNat col.toNat = p.value ∧
      (check_win (setCell s.board row.toNat col.toNat p.value) = true →
        (make_move s id row col).1.status = GameStatus.FINISHED ∧
        (make_move s id row col).1.winner = some p ∧
        (make_move s id row col).1.current_turn = s.current_turn) ∧
      (check_win (setCell s.board row.toNat col.toNat p.value) = false →
        is_board_full (setCell s.board row.toNat col.toNat p.value) = true →
        (make_move s id row col).1.status = GameStatus.FINISHED ∧
        (make_move s id row col).1.winner = none ∧
        (make_move s id row col).1.current_turn = s.current_turn) ∧
      (check_win (setCell s.board row.toNat col.toNat p.value) = false →
        is_board_full (setCell s.board row.toNat col.toNat p.value) = false →
        (make_move s id row col).1.status = GameStatus.IN_PROGRESS ∧
        (make_move s id row col).1.winner = s.winner ∧
        (make_move s id row col).1.current_turn =
          (if p = Player.X then Player.O else Player.X)) ∧
      (∀ a₀ a₁ a₂ b₀ b₁ b₂ c₀ c₁ c₂ : String,
        check_win [[a₀, a₁, a₂], [b₀, b₁, b₂], [c₀, c₁, c₂]] =
          (lineWin a₀ a₁ a₂ || lineWin b₀ b₁ b₂ || lineWin c₀ c₁ c₂ ||
           lineWin a₀ b₀ c₀ || lineWin a₁ b₁ c₁ || lineWin a₂ b₂ c₂ ||
           lineWin a₀ b₁ c₂ || lineWin a₂ b₁ c₀)) := by
  obtain ⟨p, hin, hl, hturn, hbnd, hcell, heq⟩ := make_move_succ s id row col hs
  obtain ⟨_, _, _, _, _, hwf⟩ := reachable_inv s hr
  have hrlt : row.toNat < s.board.length := by
    rw [hwf.1]
    omega
  have hmem : s.board.getD row.toNat [] ∈ s.board := by
    rw [List.getD_eq_getElem _ _ hrlt]
    exact List.getElem_mem hrlt
  have hclt : col.toNat < (s.board.getD row.toNat []).length := by
    rw [hwf.2 _ hmem]
    omega
  refine ⟨p, hl, hturn, ?_, ?_, ?_, ?_, ?_, ?_⟩
  · rw [heq]
    exact moveResultState_board s p row col
  · rw [heq]
    simp only
    rw [moveResultState_board]
    exact getCell_setCell_self s.board row.toNat col.toNat p.value hrlt hclt
  · intro hw
    rw [heq]
    simp only
    unfold moveResultState
    simp [hw]
  · intro hw hfull
    rw [heq]
    simp only
    unfold moveResultState
    simp [hw, hfull]
  · intro hw hfull
    rw [heq]
    simp only
    unfold moveResultState
    simp [hw, hfull, hin]
  · intro a₀ a₁ a₂ b₀ b₁ b₂ c₀ c₁ c₂
    simp only [check_win, getCell, List.any_cons, List.any_nil,
      List.getD_cons_zero, List.getD_cons_succ, Bool.or_false, Bool.or_assoc]

theorem C4_success_semantics_witness :
    (make_move twoPlayersState "p1" 0 0).1.status = GameStatus.IN_PROGRESS ∧
    (make_move twoPlayersState "p1" 0 0).1.current_turn = Player.O := by
  obtain ⟨p, hp, hturn, hboard, hcellv, hwin, hdraw, hprog, hcw⟩ :=
    C4_success_semantics twoPlayersState ⟨[Op.add "p1", Op.add "p2"], rfl⟩ "p1" 0 0 (by decide)
  have hpx : p = Player.X := by
    have h2 : lookupP twoPlayersState.players "p1" = some Player.X := by decide
    rw [h2] at hp
    exact (Option.some_inj.mp hp).symm
  subst hpx
  have h3 := hprog (by decide) (by decide)
  exact ⟨h3.1, h3.2.2.trans (by decide)⟩

/-- Claim C5 (amended): after a win has finished a reachable session, no
`make_move` in any subsequent sequence of addParticipant and applyMove
operations succeeds — until `reset()` or a `removeParticipant` followed by
a fresh join re-opens play (the original claim also allowed
removeParticipant in the sequence; that version is refuted by the
counterexample). -/
theorem C5_finished_blocks_moves (s : GameState) (hr : Reachable s) (p : Player)
    (hw : s.winner = some p) (hf : s.status = GameStatus.FINISHED)
    (ops : List Op) (hops : addsMovesOnly ops)
    (l₁ : List Op) (id : String) (row col : Int) (l₂ : List Op)
    (hsplit : ops = l₁ ++ Op.move id row col :: l₂) :
    (make_move (runOps s l₁) id row col).2.1 = false := by
  have hinv := reachable_inv s hr
  have hl₁ : addsMovesOnly l₁ := by
    intro op hop
    refine hops op ?_
    rw [hsplit]
    exact List.mem_append_left _ hop
  rw [finished_frozen_runOps s hinv hf l₁ hl₁]
  rcases make_move_cases s id row col with hcase | ⟨q, hin, _⟩
  · rw [hcase]
  · rw [hin] at hf
    cases hf

theorem C5_finished_blocks_moves_witness :
    (make_move (runOps wonState []) "p2" 1 2).2.1 = false :=
  C5_finished_blocks_moves wonState ⟨winTrace, rfl⟩ Player.X (by decide) (by decide)
    [Op.move "p2" 1 2]
    (by
      intro op hop
      simp only [List.mem_singleton] at hop
      exact Or.inr ⟨"p2", 1, 2, hop⟩)
    [] "p2" 1 2 [] rfl

/-- Claim C5 as stated is false: after O wins (a reachable FINISHED state
with winner O), removing the X-holder and letting a third participant join
— a sequence with no reset() — re-enters IN_PROGRESS, and O's next
`make_move` succeeds. -/
theorem C5_finished_blocks_moves_counterexample :
    Reachable oWonState ∧ oWonState.status = GameStatus.FINISHED ∧
    oWonState.winner = some Player.O ∧
    (make_move (runOps oWonState [Op.remove "p1", Op.add "p3"]) "p2" 0 2).2.1 = true :=
  ⟨⟨oWinTrace, rfl⟩, by decide, by decide, by decide⟩

/-- Claim C6: `load_state (get_state_dict s)` restores every field of every
reachable state — the snapshot round trip is the identity. -/
theorem C6_snapshot_round_trip (s : GameState) (hr : Reachable s) :
    load_state (get_state_dict s) = some s := by
  have hc := (reachable_inv s hr).1
  obtain ⟨b, ct, st, w, ps, pc⟩ := s
  simp only at hc
  simp [get_state_dict, load_state, loadPlayers_map_value, parseStatus_value,
    loadTurn_value, loadWinner_map_value, hc]

theorem C6_snapshot_round_trip_witness :
    load_state (get_state_dict wonState) = some wonState :=
  C6_snapshot_round_trip wonState ⟨winTrace, rfl⟩

/-- Claim C7: a second `add_player` with an already-registered id returns
that id's existing mark and leaves the whole state unchanged. -/
theorem C7_add_player_idempotent (s : GameState) (id : String) (p : Player)
    (h : lookupP s.players id = some p) :
    add_player s id = (s, some p) := by
  simp [add_player, h]

theorem C7_add_player_idempotent_witness :
    add_player twoPlayersState "p1" = (twoPlayersState, some Player.X) :=
  C7_add_player_idempotent twoPlayersState "p1" Player.X (by decide)

/-- Claim C8: `remove_player` with an unregistered id changes nothing; with
a registered id (on any state whose participant keys are unique, as Python
dict keys are) it deletes exactly that entry, leaves board, turn and
outcome untouched, and sets the phase to WAITING exactly when fewer than
two participants remain. -/
theorem C8_remove_player_semantics (s : GameState)
    (hnd : (s.players.map Prod.fst).Nodup) (id : String) :
    (lookupP s.players id = none → remove_player s id = s) ∧
    (∀ p, lookupP s.players id = some p →
      (remove_player s id).board = s.board ∧
      (remove_player s id).current_turn = s.current_turn ∧
      (remove_player s id).winner = s.winner ∧
      lookupP (remove_player s id).players id = none ∧
      (∀ id', id' ≠ id →
        lookupP (remove_player s id).players id' = lookupP s.players id') ∧
      (remove_player s id).players.length + 1 = s.players.length ∧
      (remove_player s id).status =
        (if s.player_count - 1 < 2 then GameStatus.WAITING else s.status)) := by
  constructor
  · intro h
    simp [remove_player, h]
  · intro p hp
    have hsome : (lookupP s.players id).isSome = true := by
      rw [hp]
      rfl
    have hred : remove_player s id =
        { s with
            players := removeEntry s.players id
            player_count := s.player_count - 1
            status := if s.player_count - 1 < 2 then GameStatus.WAITING else s.status } := by
      simp [remove_player, hsome]
    rw [hred]
    refine ⟨rfl, rfl, rfl, ?_, ?_, ?_, rfl⟩
    · exact lookupP_removeEntry_self _ _ hnd
    · intro id' hne
      exact lookupP_removeEntry_ne _ _ _ hne
    · simpa using length_removeEntry _ _ _ hp

theorem C8_remove_player_semantics_witness :
    remove_player twoPlayersState "nobody" = twoPlayersState ∧
    (remove_player twoPlayersState "p1").board = twoPlayersState.board ∧
    (remove_player twoPlayersState "p1").status =
      (if twoPlayersState.player_count - 1 < 2 then GameStatus.WAITING
       else twoPlayersState.status) :=
  ⟨(C8_remove_player_semantics twoPlayersState (by decide) "nobody").1 (by decide),
   ((C8_remove_player_semantics twoPlayersState (by decide) "p1").2 Player.X (by decide)).1,
   ((C8_remove_player_semantics twoPlayersState (by decide) "p1").2 Player.X
      (by decide)).2.2.2.2.2.2⟩

/-- Claim C9: in every reachable state the stored `player_count` equals the
number of entries of the `players` mapping; every state produced by
`load_state` satisfies the same; and `load_state` ignores the snapshot's
`player_count` field entirely, recomputing the count from the players
mapping. -/
theorem C9_player_count_consistent :
    (∀ s : GameState, Reachable s → s.player_count = (s.players.length : Int)) ∧
    (∀ (d : StateDict) (s' : GameState), load_state d = some s' →
      s'.player_count = (s'.players.length : Int)) ∧
    (∀ (d : StateDict) (n : Int),
      load_state { d with player_count := n } = load_state d) := by
  refine ⟨fun s hr => (reachable_inv s hr).1, load_state_count, fun d n => ?_⟩
  cases d
  rfl

theorem C9_player_count_consistent_witness :
    wonState.player_count = (wonState.players.length : Int) ∧
    load_state { get_state_dict wonState with player_count := 99 } =
      load_state (get_state_dict wonState) :=
  ⟨C9_player_count_consistent.1 wonState ⟨winTrace, rfl⟩,
   C9_player_count_consistent.2.2 (get_state_dict wonState) 99⟩

/-- Claim C10: for any integer coordinates outside 0..2 — negative values
included — `make_move` returns a failure (never an exception, never a move
accepted through negative indexing) and leaves the state unchanged; the
embedding mirrors the source, where the bounds check precedes every board
access. -/
theorem C10_bounds_checked (s : GameState) (id : String) (row col : Int)
    (h : ¬ (0 ≤ row ∧ row ≤ 2 ∧ 0 ≤ col ∧ col ≤ 2)) :
    (make_move s id row col).2.1 = false ∧ (make_move s id row col).1 = s := by
  rcases make_move_cases s id row col with hcase | ⟨p, _, _, _, h4, _, _⟩
  · rw [hcase]
    exact ⟨rfl, rfl⟩
  · exact absurd h4 h

theorem C10_bounds_checked_witness :
    (make_move twoPlayersState "p1" (-1) 0).2.1 = false ∧
    (make_move twoPlayersState "p1" (-1) 0).1 = twoPlayersState :=
  C10_bounds_checked twoPlayersState "p1" (-1) 0 (by decide)
